import Mathlib

/-!
Verification of the helpdesk bottleneck-analysis pipeline
(src/analysis/bottleneck_analysis.py) against its specification.

The event log is embedded as a list of rows; pandas Timestamps become exact
rationals counting seconds, so Duration_Hours arithmetic (elapsed seconds
divided by 3600) is exact.  pandas sort_values is modelled as a stable
insertion sort: numpy's default quicksort degenerates to a (stable) insertion
sort on partitions of fewer than 16 elements, which covers every sort in this
pipeline (events of one case, the per-stage summary table).  pandas
DataFrame.round(2) uses IEEE-754 double rounding; we model it as exact
round-half-up on ℚ, and every concrete input used below stays away from
half-way points, where all rounding conventions agree.
-/

namespace HelpdeskAnalysis

/-! ### Lexicographic string order

Python compares strings lexicographically by code point; pandas groupby
(sort=True) orders group keys with that order.  Mathlib's String order does
not reduce well, so we use a structural comparison on the underlying
character lists. -/

/-- Lexicographic comparison of character lists by code point. -/
def charListLE : List Char → List Char → Bool
  | [], _ => true
  | _ :: _, [] => false
  | a :: as, b :: bs => if a < b then true else if b < a then false else charListLE as bs

/-- Lexicographic order on strings, as Python compares stage names. -/
def strLE (a b : String) : Prop := charListLE a.data b.data = true

instance : DecidableRel strLE :=
  fun a b => inferInstanceAs (Decidable (charListLE a.data b.data = true))

/-- Strict version of the string order, for stating tie-breaking. -/
def strLT (a b : String) : Prop := strLE a b ∧ a ≠ b

instance : IsTotal String strLE := by
  constructor
  intro a b
  show charListLE a.data b.data = true ∨ charListLE b.data a.data = true
  generalize a.data = as
  generalize b.data = bs
  induction as generalizing bs with
  | nil => exact Or.inl rfl
  | cons x xs ih =>
    cases bs with
    | nil => exact Or.inr rfl
    | cons y ys =>
      rcases lt_trichotomy x y with h | h | h
      · exact Or.inl (by rw [charListLE]; simp [h])
      · subst h
        rcases ih ys with h' | h'
        · exact Or.inl (by rw [charListLE]; simp [lt_irrefl, h'])
        · exact Or.inr (by rw [charListLE]; simp [lt_irrefl, h'])
      · exact Or.inr (by rw [charListLE]; simp [h, lt_asymm h])

instance : IsTrans String strLE := by
  constructor
  have hiff : ∀ (a b : Char) (as bs : List Char),
      charListLE (a :: as) (b :: bs) = true ↔ (a < b ∨ (a = b ∧ charListLE as bs = true)) := by
    intro a b as bs
    rw [charListLE]
    rcases lt_trichotomy a b with h | h | h
    · simp [h, ne_of_lt h, lt_asymm h]
    · simp [h, lt_irrefl b]
    · simp [h, ne_of_gt h, lt_asymm h]
  have go : ∀ (as bs cs : List Char), charListLE as bs = true → charListLE bs cs = true →
      charListLE as cs = true := by
    intro as
    induction as with
    | nil => intro bs cs _ _; rfl
    | cons x xs ih =>
      intro bs cs hab hbc
      cases bs with
      | nil => exact absurd hab (by rw [charListLE]; simp)
      | cons y ys =>
        cases cs with
        | nil => exact absurd hbc (by rw [charListLE]; simp)
        | cons z zs =>
          rcases (hiff x y xs ys).mp hab with h1 | ⟨h1, h1'⟩ <;>
            rcases (hiff y z ys zs).mp hbc with h2 | ⟨h2, h2'⟩
          · exact (hiff x z xs zs).mpr (Or.inl (lt_trans h1 h2))
          · exact (hiff x z xs zs).mpr (Or.inl (h2 ▸ h1))
          · exact (hiff x z xs zs).mpr (Or.inl (h1 ▸ h2))
          · exact (hiff x z xs zs).mpr (Or.inr ⟨h1.trans h2, ih ys zs h1' h2'⟩)
  exact fun a b c hab hbc => go a.data b.data c.data hab hbc

/-! ### Event log -/

/-- One row of the helpdesk event log: columns Case_ID, Activity, Timestamp,
Priority, Category.  The timestamp is the instant in seconds, as an exact
rational. -/
structure Event where
  case_id : ℕ
  activity : String
  timestamp : ℚ
  priority : String
  category : String
deriving DecidableEq

/-- Accumulator version of pandas Series.unique: first occurrences, in order
of appearance; seen holds the values already emitted. -/
def uniqueKeepAux {α : Type} [DecidableEq α] (seen : List α) : List α → List α
  | [] => []
  | x :: xs => if x ∈ seen then uniqueKeepAux seen xs else x :: uniqueKeepAux (x :: seen) xs

/-- Embedding of df['Case_ID'].unique() (line 36 of the source): the distinct
case ids in order of first appearance. -/
def uniqueCaseIds (df : List Event) : List ℕ :=
  uniqueKeepAux [] (df.map Event.case_id)

/-- Embedding of df[df['Case_ID'] == case_id] (line 37): the rows of one
case, in log order. -/
def caseEvents (df : List Event) (c : ℕ) : List Event :=
  df.filter fun e => decide (e.case_id = c)

/-- Timestamp-ascending comparison used by sort_values('Timestamp'). -/
def tsLE (a b : Event) : Prop := a.timestamp ≤ b.timestamp

instance : DecidableRel tsLE :=
  fun a b => inferInstanceAs (Decidable (a.timestamp ≤ b.timestamp))

/-- Embedding of .sort_values('Timestamp') (line 37), as a stable sort. -/
def sortByTimestamp (l : List Event) : List Event :=
  List.insertionSort tsLE l

/-- Time-ordered events of one case. -/
def sortedCaseEvents (df : List Event) (c : ℕ) : List Event :=
  sortByTimestamp (caseEvents df c)

/-! ### Stage transition extraction (calculate_stage_cycle_times, lines 32-62) -/

/-- One record appended to stage_times (lines 44-50). -/
structure Transition where
  From_Stage : String
  To_Stage : String
  Duration_Hours : ℚ
  Priority : String
  Category : String
deriving DecidableEq

/-- Record built from a consecutive pair of events (lines 40-50): duration is
elapsed seconds over 3600, Priority and Category come from the row at
position i, the earlier event. -/
def mkTransition (a b : Event) : Transition :=
  { From_Stage := a.activity
    To_Stage := b.activity
    Duration_Hours := (b.timestamp - a.timestamp) / 3600
    Priority := a.priority
    Category := a.category }

/-- The loop for i in range(len(case_data) - 1) (line 39): one transition per
adjacent pair of the (already sorted) case rows. -/
def transitionsOfSorted : List Event → List Transition
  | [] => []
  | [_] => []
  | a :: b :: rest => mkTransition a b :: transitionsOfSorted (b :: rest)

/-- All transitions of one case. -/
def caseTransitions (df : List Event) (c : ℕ) : List Transition :=
  transitionsOfSorted (sortedCaseEvents df c)

/-- Embedding of the stage_times list (pd.DataFrame(stage_times), line 52):
the per-case transition lists concatenated in first-appearance order of the
case ids. -/
def stage_df (df : List Event) : List Transition :=
  (uniqueCaseIds df).flatMap (caseTransitions df)

/-! ### Aggregation (lines 55-60) -/

/-- Round-half-up to 2 decimal places, modelling DataFrame.round(2). -/
def round2 (q : ℚ) : ℚ := (Rat.floor (100 * q + 1/2) : ℚ) / 100

/-- Round-half-up to an integer, modelling Python round(x, 0). -/
def round0 (q : ℚ) : ℚ := (Rat.floor (q + 1/2) : ℚ)

/-- Arithmetic mean of a list ('mean' aggregation); 0 on the empty list,
which never arises for a groupby group. -/
def qMean (l : List ℚ) : ℚ := l.sum / l.length

/-- Statistical median of a list ('median' aggregation): middle element of
the sorted list, or the mean of the two middle elements; none on the empty
list, which never arises for a groupby group. -/
def qMedian (l : List ℚ) : Option ℚ :=
  let s := List.insertionSort (fun a b : ℚ => a ≤ b) l
  if s.length = 0 then none
  else if s.length % 2 = 1 then some (s.getD (s.length / 2) 0)
  else some ((s.getD (s.length / 2 - 1) 0 + s.getD (s.length / 2) 0) / 2)

/-- Sample variance with ddof = 1, the square of pandas' 'std' aggregation:
none models the NaN that pandas produces on a group with fewer than two
elements (0/0).  We carry the square because the square root of a rational
is irrational; pandas' Std_Hours is NaN exactly when this field is none,
which is the only aspect of the statistic the specification pins down. -/
def sampleVar (l : List ℚ) : Option ℚ :=
  if l.length < 2 then none
  else some ((l.map fun x => (x - qMean l) ^ 2).sum / ((l.length : ℚ) - 1))

/-- One row of the aggregated summary (lines 55-60).  Avg_Hours and
Median_Hours carry the .round(2) applied to the whole frame before it is
returned; Std_Hours_sq is the sample variance (see sampleVar) and is kept
unrounded since rounding the standard deviation does not commute with
squaring, and no claim consults its magnitude, only its definedness. -/
structure StageSummaryRow where
  From_Stage : String
  Avg_Hours : ℚ
  Median_Hours : Option ℚ
  Std_Hours_sq : Option ℚ
  Count : ℕ
deriving DecidableEq

/-- Summary row for one from-stage group. -/
def mkSummaryRow (k : String) (durs : List ℚ) : StageSummaryRow :=
  { From_Stage := k
    Avg_Hours := round2 (qMean durs)
    Median_Hours := (qMedian durs).map round2
    Std_Hours_sq := sampleVar durs
    Count := durs.length }

/-- Group keys of stage_df.groupby('From_Stage') (line 55): pandas groupby
with its default sort=True lists the distinct keys in ascending key order,
not in order of first appearance. -/
def stageKeys (trs : List Transition) : List String :=
  List.insertionSort strLE (uniqueKeepAux [] (trs.map Transition.From_Stage))

/-- Duration_Hours column of one groupby group, in stage_df order. -/
def groupDurations (trs : List Transition) (k : String) : List ℚ :=
  (trs.filter fun t => decide (t.From_Stage = k)).map Transition.Duration_Hours

/-- Comparison putting larger Avg_Hours first, used to model
.sort_values('Avg_Hours', ascending=False) (line 60) as a stable sort. -/
def avgDescLE (s t : StageSummaryRow) : Prop := t.Avg_Hours ≤ s.Avg_Hours

instance : DecidableRel avgDescLE :=
  fun s t => inferInstanceAs (Decidable (t.Avg_Hours ≤ s.Avg_Hours))

/-- Embedding of calculate_stage_cycle_times (lines 32-62): returns the flat
transition table and the rounded, mean-descending summary. -/
def calculate_stage_cycle_times (df : List Event) :
    List Transition × List StageSummaryRow :=
  let trs := stage_df df
  let grouped := (stageKeys trs).map fun k => mkSummaryRow k (groupDurations trs k)
  (trs, List.insertionSort avgDescLE grouped)

/-! ### Bottleneck classification (identify_bottlenecks, lines 64-72) -/

/-- Severity labels of pd.cut (line 70). -/
inductive Severity
  | MODERATE
  | HIGH
  | CRITICAL
deriving DecidableEq

/-- Embedding of pd.cut(x, bins=[0, 30, 40, inf], labels=...) (lines 67-71):
right-closed bins (0,30], (30,40], (40,∞); values outside every bin (x ≤ 0)
get NaN, modelled as none. -/
def severityOf (x : ℚ) : Option Severity :=
  if 0 < x ∧ x ≤ 30 then some Severity.MODERATE
  else if 30 < x ∧ x ≤ 40 then some Severity.HIGH
  else if 40 < x then some Severity.CRITICAL
  else none

/-- Embedding of identify_bottlenecks (lines 64-72): keep the rows with
Avg_Hours strictly above the threshold (default 20 in the source) and attach
the pd.cut severity column. -/
def identify_bottlenecks (stage_summary : List StageSummaryRow) (threshold_hours : ℚ) :
    List (StageSummaryRow × Option Severity) :=
  (stage_summary.filter fun r => decide (threshold_hours < r.Avg_Hours)).map
    fun r => (r, severityOf r.Avg_Hours)

/-! ### Resolution time (calculate_total_resolution_time, lines 84-101) -/

/-- Fold computing Series.min(); 0 on the empty list, which never arises
because every case id in uniqueCaseIds has at least one row. -/
def qMinOf : List ℚ → ℚ
  | [] => 0
  | x :: xs => xs.foldl min x

/-- Fold computing Series.max(); 0 on the empty list, as for qMinOf. -/
def qMaxOf : List ℚ → ℚ
  | [] => 0
  | x :: xs => xs.foldl max x

/-- One record appended to resolution_times (lines 94-99). -/
structure ResolutionRecord where
  Case_ID : ℕ
  Total_Hours : ℚ
  Priority : String
  Category : String
deriving DecidableEq

/-- Record for one case (lines 89-99): Total_Hours is max minus min of the
case timestamps in hours; Priority and Category come from iloc[0], the first
row of the case in log order (this function does not re-sort). -/
def resolutionRecordOf (df : List Event) (c : ℕ) : ResolutionRecord :=
  let cd := caseEvents df c
  { Case_ID := c
    Total_Hours := (qMaxOf (cd.map Event.timestamp) - qMinOf (cd.map Event.timestamp)) / 3600
    Priority := ((cd.head?).map Event.priority).getD ""
    Category := ((cd.head?).map Event.category).getD "" }

/-- Embedding of calculate_total_resolution_time (lines 84-101). -/
def calculate_total_resolution_time (df : List Event) : List ResolutionRecord :=
  (uniqueCaseIds df).map (resolutionRecordOf df)

/-! ### Impact estimation (calculate_improvement_impact, lines 107-133) -/

/-- Comparison putting larger rationals first. -/
def qDescLE (a b : ℚ) : Prop := b ≤ a

instance : DecidableRel qDescLE :=
  fun a b => inferInstanceAs (Decidable (b ≤ a))

/-- Embedding of stage_summary.nlargest(2, 'Avg_Hours') (line 118): the
first two rows of the stable Avg_Hours-descending sort (nlargest with its
default keep='first' prefers earlier rows on ties). -/
def nlargest2 (stage_summary : List StageSummaryRow) : List StageSummaryRow :=
  (List.insertionSort avgDescLE stage_summary).take 2

/-- Local total_bottleneck_hours of the source (line 119), before rounding. -/
def total_bottleneck_hours (stage_summary : List StageSummaryRow) : ℚ :=
  ((nlargest2 stage_summary).map StageSummaryRow.Avg_Hours).sum

/-- Local hours_saved_per_ticket of the source (line 122), before rounding. -/
def hours_saved_per_ticketQ (stage_summary : List StageSummaryRow)
    (improvement_pct : ℚ) : ℚ :=
  total_bottleneck_hours stage_summary * improvement_pct

/-- Local annual_hours_saved of the source (line 123), before rounding. -/
def annual_hours_savedQ (stage_summary : List StageSummaryRow)
    (annual_tickets improvement_pct : ℚ) : ℚ :=
  hours_saved_per_ticketQ stage_summary improvement_pct * annual_tickets

/-- Local annual_cost_savings of the source (line 124), before rounding. -/
def annual_cost_savingsQ (stage_summary : List StageSummaryRow)
    (annual_tickets improvement_pct hourly_cost : ℚ) : ℚ :=
  annual_hours_savedQ stage_summary annual_tickets improvement_pct * hourly_cost

/-- The dictionary returned by calculate_improvement_impact (lines 127-133). -/
structure ImpactEstimate where
  bottleneck_hours_per_ticket : ℚ
  hours_saved_per_ticket : ℚ
  annual_hours_saved : ℚ
  annual_cost_savings : ℚ
  fte_equivalency : ℚ
deriving DecidableEq

/-- Embedding of calculate_improvement_impact (lines 107-133).  The source
defaults are annual_tickets=500, improvement_pct=0.30, hourly_cost=30; here
they are passed explicitly.  Note the returned fields are rounded (round(x,2)
for the per-ticket numbers and fte, round(x,0) for the annual numbers). -/
def calculate_improvement_impact (stage_summary : List StageSummaryRow)
    (annual_tickets improvement_pct hourly_cost : ℚ) : ImpactEstimate :=
  { bottleneck_hours_per_ticket := round2 (total_bottleneck_hours stage_summary)
    hours_saved_per_ticket := round2 (hours_saved_per_ticketQ stage_summary improvement_pct)
    annual_hours_saved := round0 (annual_hours_savedQ stage_summary annual_tickets improvement_pct)
    annual_cost_savings :=
      round0 (annual_cost_savingsQ stage_summary annual_tickets improvement_pct hourly_cost)
    fte_equivalency :=
      round2 (annual_hours_savedQ stage_summary annual_tickets improvement_pct / 2080) }

/-- Top-2 total of a plain list of per-stage means, selected the same way as
the source selects its top-2 rows. -/
def specTotal (means : List ℚ) : ℚ :=
  ((List.insertionSort qDescLE means).take 2).sum

/-- Modelled from the spec (section 4.5), for comparison with the code: the
impact estimate computed directly from a list of per-stage mean durations,
with the same output rounding as the source dictionary.  Claim C6 compares
the code's estimate (computed from the rounded StageSummary) with this
function applied to the unrounded means. -/
def impactFromMeansSpec (means : List ℚ)
    (annual_tickets improvement_pct hourly_cost : ℚ) : ImpactEstimate :=
  { bottleneck_hours_per_ticket := round2 (specTotal means)
    hours_saved_per_ticket := round2 (specTotal means * improvement_pct)
    annual_hours_saved := round0 (specTotal means * improvement_pct * annual_tickets)
    annual_cost_savings :=
      round0 (specTotal means * improvement_pct * annual_tickets * hourly_cost)
    fte_equivalency := round2 (specTotal means * improvement_pct * annual_tickets / 2080) }

/-! ### Concrete inputs used by witnesses and counterexamples -/

/-- Strict ordering realised by the summary: strictly descending mean, with
ties in strictly ascending stage-name order. -/
def summaryLex (s t : StageSummaryRow) : Prop :=
  t.Avg_Hours < s.Avg_Hours ∨ (s.Avg_Hours = t.Avg_Hours ∧ strLT s.From_Stage t.From_Stage)

/-- Concrete event log used by the witnesses: case 1 has three events (two of
them at the same instant), case 2 has a single event. -/
def dfW : List Event :=
  [⟨1, "Opened", 0, "High", "Hardware"⟩,
   ⟨1, "Investigation Started", 18000, "Medium", "Email"⟩,
   ⟨1, "Closed", 18000, "Medium", "Email"⟩,
   ⟨2, "Opened", 3600, "Low", "Software"⟩]

/-- Summary row sitting exactly on the 30-hour bin edge. -/
def rowM : StageSummaryRow := ⟨"A", 30, none, none, 1⟩

/-- Summary row sitting exactly on the 40-hour bin edge. -/
def rowH : StageSummaryRow := ⟨"B", 40, none, none, 1⟩

/-- Transitions of the concrete log, as literals. -/
def trA : Transition := ⟨"Opened", "Investigation Started", 5, "High", "Hardware"⟩

/-- Second transition of the concrete log. -/
def trB : Transition := ⟨"Investigation Started", "Closed", 0, "Medium", "Email"⟩

/-- Log whose two stages B (seen first) and A (seen second) have equal mean
durations. -/
def dfC5 : List Event :=
  [⟨1, "B", 0, "Low", "X"⟩, ⟨1, "A", 3600, "Low", "X"⟩, ⟨1, "B", 7200, "Low", "X"⟩]

/-- Log with a single transition of 21.6 seconds, i.e. 0.006 hours: the
rounded mean (0.01) and the unrounded mean (0.006) give different impact
estimates. -/
def dfC6 : List Event :=
  [⟨1, "Opened", 0, "High", "HW"⟩, ⟨1, "Closed", 108/5, "High", "HW"⟩]

/-- Summary row with a small mean on which the output rounding breaks exact
doubling. -/
def rowC7 : StageSummaryRow := ⟨"A", 1/25, none, none, 1⟩

/-! ### Basic lemmas about the extractor -/

instance : IsTotal Event tsLE :=
  ⟨fun a b => le_total a.timestamp b.timestamp⟩

instance : IsTrans Event tsLE :=
  ⟨fun _ _ _ hab hbc => le_trans hab hbc⟩

instance : IsTotal StageSummaryRow avgDescLE :=
  ⟨fun a b => (le_total b.Avg_Hours a.Avg_Hours).imp id id⟩

instance : IsTrans StageSummaryRow avgDescLE :=
  ⟨fun _ _ _ hab hbc => le_trans hbc hab⟩

theorem transitionsOfSorted_length :
    ∀ l : List Event, (transitionsOfSorted l).length = l.length - 1
  | [] => rfl
  | [_] => rfl
  | _ :: b :: rest => by
    have ih := transitionsOfSorted_length (b :: rest)
    simp only [transitionsOfSorted, List.length_cons] at ih ⊢
    omega

theorem transitionsOfSorted_get :
    ∀ (l : List Event) (i : ℕ) (h1 : i < l.length) (h2 : i + 1 < l.length)
      (h' : i < (transitionsOfSorted l).length),
      (transitionsOfSorted l).get ⟨i, h'⟩
        = mkTransition (l.get ⟨i, h1⟩) (l.get ⟨i + 1, h2⟩)
  | [], _, h1, _, _ => absurd h1 (by simp)
  | [_], _, _, h2, _ => by simp at h2
  | _ :: _ :: _, 0, _, _, _ => rfl
  | a :: b :: rest, i + 1, h1, h2, h' => by
    have hr : i < (transitionsOfSorted (b :: rest)).length := by
      simpa [transitionsOfSorted] using h'
    exact transitionsOfSorted_get (b :: rest) i (by simpa using h1) (by simpa using h2) hr

theorem transitionsOfSorted_mem :
    ∀ {l : List Event} {tr : Transition}, tr ∈ transitionsOfSorted l →
      ∃ a b, a ∈ l ∧ b ∈ l ∧ tr = mkTransition a b
  | [], _, h => absurd h (by simp [transitionsOfSorted])
  | [_], _, h => absurd h (by simp [transitionsOfSorted])
  | a :: b :: rest, tr, h => by
    rcases List.mem_cons.mp h with rfl | h'
    · exact ⟨a, b, by simp, by simp, rfl⟩
    · obtain ⟨x, y, hx, hy, hxy⟩ := transitionsOfSorted_mem h'
      exact ⟨x, y, List.mem_cons_of_mem a hx, List.mem_cons_of_mem a hy, hxy⟩

theorem transitionsOfSorted_nonneg :
    ∀ {l : List Event}, List.Sorted tsLE l →
      ∀ tr ∈ transitionsOfSorted l, 0 ≤ tr.Duration_Hours
  | [], _, _, h => absurd h (by simp [transitionsOfSorted])
  | [_], _, _, h => absurd h (by simp [transitionsOfSorted])
  | a :: b :: rest, hs, tr, h => by
    rcases List.mem_cons.mp h with rfl | h'
    · have hab : a.timestamp ≤ b.timestamp :=
        List.rel_of_sorted_cons hs b (List.mem_cons_self b rest)
      have : (0 : ℚ) ≤ (b.timestamp - a.timestamp) / 3600 :=
        div_nonneg (sub_nonneg.mpr hab) (by norm_num)
      simpa [mkTransition] using this
    · exact transitionsOfSorted_nonneg hs.of_cons tr h'

theorem transitionsOfSorted_sum :
    ∀ (l : List Event) (h : l ≠ []),
      ((transitionsOfSorted l).map Transition.Duration_Hours).sum
        = ((l.getLast h).timestamp - (l.head h).timestamp) / 3600
  | [x], _ => by simp [transitionsOfSorted]
  | a :: b :: rest, _ => by
    have ih := transitionsOfSorted_sum (b :: rest) (by simp)
    have hlast : (a :: b :: rest).getLast (by simp) = (b :: rest).getLast (by simp) :=
      List.getLast_cons (by simp)
    simp only [transitionsOfSorted, List.map_cons, List.sum_cons, ih, hlast,
      List.head_cons, mkTransition]
    ring

/-! ### Lemmas about pandas unique -/

theorem mem_uniqueKeepAux {α : Type} [DecidableEq α] :
    ∀ (seen l : List α) (a : α), a ∈ uniqueKeepAux seen l ↔ a ∈ l ∧ a ∉ seen
  | _, [], _ => by simp [uniqueKeepAux]
  | seen, x :: xs, a => by
    by_cases hx : x ∈ seen
    · rw [uniqueKeepAux, if_pos hx, mem_uniqueKeepAux seen xs a]
      constructor
      · exact fun ⟨h1, h2⟩ => ⟨List.mem_cons_of_mem x h1, h2⟩
      · rintro ⟨h1, h2⟩
        rcases List.mem_cons.mp h1 with rfl | h1
        · exact absurd hx h2
        · exact ⟨h1, h2⟩
    · rw [uniqueKeepAux, if_neg hx]
      constructor
      · intro h
        rcases List.mem_cons.mp h with rfl | h
        · exact ⟨List.mem_cons_self a xs, hx⟩
        · obtain ⟨h1, h2⟩ := (mem_uniqueKeepAux (x :: seen) xs a).mp h
          exact ⟨List.mem_cons_of_mem x h1, fun hs => h2 (List.mem_cons_of_mem x hs)⟩
      · rintro ⟨h1, h2⟩
        rcases List.mem_cons.mp h1 with rfl | h1
        · exact List.mem_cons_self a _
        · by_cases hax : a = x
          · subst hax; exact List.mem_cons_self a _
          · exact List.mem_cons_of_mem x ((mem_uniqueKeepAux (x :: seen) xs a).mpr
              ⟨h1, by simp [hax, h2]⟩)

theorem nodup_uniqueKeepAux {α : Type} [DecidableEq α] :
    ∀ (seen l : List α), (uniqueKeepAux seen l).Nodup
  | _, [] => by simp [uniqueKeepAux]
  | seen, x :: xs => by
    by_cases hx : x ∈ seen
    · rw [uniqueKeepAux, if_pos hx]
      exact nodup_uniqueKeepAux seen xs
    · rw [uniqueKeepAux, if_neg hx]
      refine List.Nodup.cons ?_ (nodup_uniqueKeepAux (x :: seen) xs)
      intro hmem
      exact ((mem_uniqueKeepAux (x :: seen) xs x).mp hmem).2 (List.mem_cons_self x seen)

theorem mem_uniqueCaseIds {df : List Event} {c : ℕ} :
    c ∈ uniqueCaseIds df ↔ c ∈ df.map Event.case_id := by
  rw [uniqueCaseIds, mem_uniqueKeepAux]
  simp

theorem caseEvents_ne_nil {df : List Event} {c : ℕ} (hc : c ∈ uniqueCaseIds df) :
    caseEvents df c ≠ [] := by
  obtain ⟨e, he, hce⟩ := List.mem_map.mp (mem_uniqueCaseIds.mp hc)
  have : e ∈ caseEvents df c := by
    simp [caseEvents, List.mem_filter, he, hce]
  exact List.ne_nil_of_mem this

theorem mem_caseEvents {df : List Event} {c : ℕ} {e : Event} :
    e ∈ caseEvents df c ↔ e ∈ df ∧ e.case_id = c := by
  simp [caseEvents, List.mem_filter]

/-! ### Min and max folds (Series.min and Series.max) -/

theorem foldl_min_le_init (xs : List ℚ) (a : ℚ) : xs.foldl min a ≤ a := by
  induction xs generalizing a with
  | nil => simp
  | cons x xs ih => exact le_trans (ih (min a x)) (min_le_left a x)

theorem foldl_min_le_mem (xs : List ℚ) (a : ℚ) :
    ∀ x ∈ xs, xs.foldl min a ≤ x := by
  induction xs generalizing a with
  | nil => simp
  | cons y ys ih =>
    intro x hx
    rcases List.mem_cons.mp hx with rfl | hx
    · exact le_trans (foldl_min_le_init ys (min a x)) (min_le_right a x)
    · exact ih (min a y) x hx

theorem foldl_min_mem (xs : List ℚ) (a : ℚ) :
    xs.foldl min a = a ∨ xs.foldl min a ∈ xs := by
  induction xs generalizing a with
  | nil => exact Or.inl rfl
  | cons x xs ih =>
    rcases ih (min a x) with h | h
    · rcases min_choice a x with hm | hm
      · exact Or.inl (by rw [List.foldl_cons, h, hm])
      · exact Or.inr (by rw [List.foldl_cons, h, hm]; exact List.mem_cons_self x xs)
    · exact Or.inr (List.mem_cons_of_mem x h)

theorem qMinOf_le {l : List ℚ} : ∀ x ∈ l, qMinOf l ≤ x := by
  cases l with
  | nil => simp
  | cons a xs =>
    intro x hx
    rcases List.mem_cons.mp hx with rfl | hx
    · exact foldl_min_le_init xs x
    · exact foldl_min_le_mem xs a x hx

theorem qMinOf_mem {l : List ℚ} (h : l ≠ []) : qMinOf l ∈ l := by
  cases l with
  | nil => exact absurd rfl h
  | cons a xs =>
    show xs.foldl min a ∈ a :: xs
    rcases foldl_min_mem xs a with h1 | h1
    · rw [h1]; exact List.mem_cons_self a xs
    · exact List.mem_cons_of_mem a h1

theorem foldl_max_init_le (xs : List ℚ) (a : ℚ) : a ≤ xs.foldl max a := by
  induction xs generalizing a with
  | nil => simp
  | cons x xs ih => exact le_trans (le_max_left a x) (ih (max a x))

theorem foldl_max_mem_le (xs : List ℚ) (a : ℚ) :
    ∀ x ∈ xs, x ≤ xs.foldl max a := by
  induction xs generalizing a with
  | nil => simp
  | cons y ys ih =>
    intro x hx
    rcases List.mem_cons.mp hx with rfl | hx
    · exact le_trans (le_max_right a x) (foldl_max_init_le ys (max a x))
    · exact ih (max a y) x hx

theorem foldl_max_mem (xs : List ℚ) (a : ℚ) :
    xs.foldl max a = a ∨ xs.foldl max a ∈ xs := by
  induction xs generalizing a with
  | nil => exact Or.inl rfl
  | cons x xs ih =>
    rcases ih (max a x) with h | h
    · rcases max_choice a x with hm | hm
      · exact Or.inl (by rw [List.foldl_cons, h, hm])
      · exact Or.inr (by rw [List.foldl_cons, h, hm]; exact List.mem_cons_self x xs)
    · exact Or.inr (List.mem_cons_of_mem x h)

theorem le_qMaxOf {l : List ℚ} : ∀ x ∈ l, x ≤ qMaxOf l := by
  cases l with
  | nil => simp
  | cons a xs =>
    intro x hx
    rcases List.mem_cons.mp hx with rfl | hx
    · exact foldl_max_init_le xs x
    · exact foldl_max_mem_le xs a x hx

theorem qMaxOf_mem {l : List ℚ} (h : l ≠ []) : qMaxOf l ∈ l := by
  cases l with
  | nil => exact absurd rfl h
  | cons a xs =>
    show xs.foldl max a ∈ a :: xs
    rcases foldl_max_mem xs a with h1 | h1
    · rw [h1]; exact List.mem_cons_self a xs
    · exact List.mem_cons_of_mem a h1

/-! ### The ends of a timestamp-sorted list are the extremes -/

theorem sorted_head_le {l : List Event} (hs : List.Sorted tsLE l) (h : l ≠ []) :
    ∀ x ∈ l, (l.head h).timestamp ≤ x.timestamp := by
  cases l with
  | nil => exact absurd rfl h
  | cons a t =>
    intro x hx
    rcases List.mem_cons.mp hx with rfl | hx
    · simp
    · exact List.rel_of_sorted_cons hs x hx

theorem sorted_le_getLast :
    ∀ {l : List Event}, List.Sorted tsLE l → ∀ (h : l ≠ []),
      ∀ x ∈ l, x.timestamp ≤ (l.getLast h).timestamp
  | [], _, h, _, _ => absurd rfl h
  | [a], _, _, x, hx => by
    rcases List.mem_cons.mp hx with rfl | hx
    · simp
    · simp at hx
  | a :: b :: t, hs, _, x, hx => by
    have hlast : (a :: b :: t).getLast (by simp) = (b :: t).getLast (by simp) :=
      List.getLast_cons (by simp)
    rcases List.mem_cons.mp hx with rfl | hx
    · rw [hlast]
      exact List.rel_of_sorted_cons hs _ (List.getLast_mem (by simp))
    · rw [hlast]
      exact sorted_le_getLast hs.of_cons (by simp) x hx

theorem head_sortByTimestamp {l : List Event} (h' : sortByTimestamp l ≠ []) :
    ((sortByTimestamp l).head h').timestamp = qMinOf (l.map Event.timestamp) := by
  have hperm : List.Perm (sortByTimestamp l) l := List.perm_insertionSort tsLE l
  have hs : List.Sorted tsLE (sortByTimestamp l) := List.sorted_insertionSort tsLE l
  have hl : l ≠ [] := by
    intro hnil
    exact h' (by simp [sortByTimestamp, hnil, List.insertionSort])
  have hmm : qMinOf (l.map Event.timestamp) ∈ l.map Event.timestamp :=
    qMinOf_mem (by simpa using hl)
  obtain ⟨e, he, hets⟩ := List.mem_map.mp hmm
  have h1 : ((sortByTimestamp l).head h').timestamp ≤ e.timestamp :=
    sorted_head_le hs h' e (hperm.mem_iff.mpr he)
  have hhead : (sortByTimestamp l).head h' ∈ l := hperm.mem_iff.mp (List.head_mem h')
  have h2 : qMinOf (l.map Event.timestamp) ≤ ((sortByTimestamp l).head h').timestamp :=
    qMinOf_le _ (List.mem_map_of_mem Event.timestamp hhead)
  exact le_antisymm (hets ▸ h1) h2

theorem getLast_sortByTimestamp {l : List Event} (h' : sortByTimestamp l ≠ []) :
    ((sortByTimestamp l).getLast h').timestamp = qMaxOf (l.map Event.timestamp) := by
  have hperm : List.Perm (sortByTimestamp l) l := List.perm_insertionSort tsLE l
  have hs : List.Sorted tsLE (sortByTimestamp l) := List.sorted_insertionSort tsLE l
  have hl : l ≠ [] := by
    intro hnil
    exact h' (by simp [sortByTimestamp, hnil, List.insertionSort])
  have hmm : qMaxOf (l.map Event.timestamp) ∈ l.map Event.timestamp :=
    qMaxOf_mem (by simpa using hl)
  obtain ⟨e, he, hets⟩ := List.mem_map.mp hmm
  have h1 : e.timestamp ≤ ((sortByTimestamp l).getLast h').timestamp :=
    sorted_le_getLast hs h' e (hperm.mem_iff.mpr he)
  have hlastm : (sortByTimestamp l).getLast h' ∈ l := hperm.mem_iff.mp (List.getLast_mem h')
  have h2 : ((sortByTimestamp l).getLast h').timestamp ≤ qMaxOf (l.map Event.timestamp) :=
    le_qMaxOf _ (List.mem_map_of_mem Event.timestamp hlastm)
  exact le_antisymm h2 (hets ▸ h1)

/-! ### Telescoping sum for one case -/

theorem sortedCaseEvents_ne_nil {df : List Event} {c : ℕ} (hc : c ∈ uniqueCaseIds df) :
    sortedCaseEvents df c ≠ [] := by
  intro h0
  apply caseEvents_ne_nil hc
  have hlen := congrArg List.length h0
  rw [sortedCaseEvents, sortByTimestamp, List.length_insertionSort] at hlen
  exact List.eq_nil_of_length_eq_zero hlen

theorem caseTransitions_sum (df : List Event) (c : ℕ) (hc : c ∈ uniqueCaseIds df) :
    ((caseTransitions df c).map Transition.Duration_Hours).sum
      = (resolutionRecordOf df c).Total_Hours := by
  have hne' : sortedCaseEvents df c ≠ [] := sortedCaseEvents_ne_nil hc
  rw [caseTransitions, transitionsOfSorted_sum _ hne']
  show (((sortByTimestamp (caseEvents df c)).getLast hne').timestamp
      - ((sortByTimestamp (caseEvents df c)).head hne').timestamp) / 3600
    = (qMaxOf ((caseEvents df c).map Event.timestamp)
      - qMinOf ((caseEvents df c).map Event.timestamp)) / 3600
  rw [getLast_sortByTimestamp hne', head_sortByTimestamp hne']

/-! ### Shape of the returned summary -/

theorem snd_calculate_stage_cycle_times (df : List Event) :
    (calculate_stage_cycle_times df).2
      = List.insertionSort avgDescLE
          ((stageKeys (stage_df df)).map fun k =>
            mkSummaryRow k (groupDurations (stage_df df) k)) := rfl

theorem mem_summary {df : List Event} {r : StageSummaryRow}
    (h : r ∈ (calculate_stage_cycle_times df).2) :
    ∃ k ∈ stageKeys (stage_df df), r = mkSummaryRow k (groupDurations (stage_df df) k) := by
  rw [snd_calculate_stage_cycle_times] at h
  obtain ⟨k, hk, hr⟩ := List.mem_map.mp ((List.mem_insertionSort avgDescLE).mp h)
  exact ⟨k, hk, hr.symm⟩

/-! ### Tie-breaking of the summary sort

The grouped table is in ascending key order (pandas groupby sort=True) with
distinct keys, and the mean-descending sort is stable, so rows with equal
Avg_Hours stay in ascending From_Stage order. -/

theorem pairwise_lex_orderedInsert (x : StageSummaryRow) :
    ∀ l : List StageSummaryRow, l.Pairwise summaryLex →
      (∀ y ∈ l, strLT x.From_Stage y.From_Stage) →
      (List.orderedInsert avgDescLE x l).Pairwise summaryLex
  | [], _, _ => List.pairwise_singleton summaryLex x
  | y :: ys, hl, hk => by
    rw [List.orderedInsert]
    by_cases hxy : avgDescLE x y
    · rw [if_pos hxy]
      refine List.pairwise_cons.mpr ⟨?_, hl⟩
      intro z hz
      rcases List.mem_cons.mp hz with rfl | hz
      · rcases lt_or_eq_of_le hxy with h | h
        · exact Or.inl h
        · exact Or.inr ⟨h.symm, hk z (List.mem_cons_self z ys)⟩
      · have hyz := (List.pairwise_cons.mp hl).1 z hz
        have hzy : z.Avg_Hours ≤ y.Avg_Hours := by
          rcases hyz with h | ⟨h, _⟩
          · exact le_of_lt h
          · exact le_of_eq h.symm
        rcases lt_or_eq_of_le (le_trans hzy hxy) with h | h
        · exact Or.inl h
        · exact Or.inr ⟨h.symm, hk z (List.mem_cons_of_mem y hz)⟩
    · rw [if_neg hxy]
      have hyx : x.Avg_Hours < y.Avg_Hours := lt_of_not_le hxy
      refine List.pairwise_cons.mpr ⟨?_, ?_⟩
      · intro w hw
        rcases (List.mem_orderedInsert avgDescLE).mp hw with rfl | hw
        · exact Or.inl hyx
        · exact (List.pairwise_cons.mp hl).1 w hw
      · exact pairwise_lex_orderedInsert x ys (List.pairwise_cons.mp hl).2
          fun z hz => hk z (List.mem_cons_of_mem y hz)

theorem pairwise_lex_insertionSort :
    ∀ l : List StageSummaryRow,
      (l.Pairwise fun s t => strLT s.From_Stage t.From_Stage) →
      (List.insertionSort avgDescLE l).Pairwise summaryLex
  | [], _ => List.Pairwise.nil
  | x :: xs, hkeys => by
    rw [List.insertionSort]
    have hp := List.pairwise_cons.mp hkeys
    refine pairwise_lex_orderedInsert x _ (pairwise_lex_insertionSort xs hp.2) ?_
    intro y hy
    exact hp.1 y ((List.mem_insertionSort avgDescLE).mp hy)

theorem stageKeys_pairwise_strLT (trs : List Transition) :
    (stageKeys trs).Pairwise strLT := by
  have hsorted : (stageKeys trs).Pairwise strLE :=
    List.sorted_insertionSort strLE (uniqueKeepAux [] (trs.map Transition.From_Stage))
  have hnodup : (stageKeys trs).Nodup :=
    (List.perm_insertionSort strLE _).nodup_iff.mpr
      (nodup_uniqueKeepAux [] (trs.map Transition.From_Stage))
  exact hsorted.and hnodup

theorem summary_pairwise_lex (df : List Event) :
    ((calculate_stage_cycle_times df).2).Pairwise summaryLex := by
  rw [snd_calculate_stage_cycle_times]
  apply pairwise_lex_insertionSort
  rw [List.pairwise_map]
  exact stageKeys_pairwise_strLT (stage_df df)

/-! ### The impact estimate is a function of the Avg_Hours column -/

theorem map_avg_insertionSort (l : List StageSummaryRow) :
    (List.insertionSort avgDescLE l).map StageSummaryRow.Avg_Hours
      = List.insertionSort qDescLE (l.map StageSummaryRow.Avg_Hours) :=
  List.map_insertionSort avgDescLE qDescLE StageSummaryRow.Avg_Hours l
    fun _ _ _ _ => Iff.rfl

theorem total_bottleneck_hours_eq_specTotal (l : List StageSummaryRow) :
    total_bottleneck_hours l = specTotal (l.map StageSummaryRow.Avg_Hours) := by
  rw [total_bottleneck_hours, nlargest2, specTotal, ← map_avg_insertionSort, List.map_take]

theorem impact_eq_impactFromMeansSpec (l : List StageSummaryRow)
    (annual_tickets improvement_pct hourly_cost : ℚ) :
    calculate_improvement_impact l annual_tickets improvement_pct hourly_cost
      = impactFromMeansSpec (l.map StageSummaryRow.Avg_Hours)
          annual_tickets improvement_pct hourly_cost := by
  rw [calculate_improvement_impact, impactFromMeansSpec]
  rw [hours_saved_per_ticketQ, annual_hours_savedQ, annual_cost_savingsQ,
    hours_saved_per_ticketQ, annual_hours_savedQ, hours_saved_per_ticketQ,
    total_bottleneck_hours_eq_specTotal]

/-! ### Claim theorems: the extractor -/

theorem caseTransitions_length (df : List Event) (c : ℕ) :
    (caseTransitions df c).length = (caseEvents df c).length - 1 := by
  rw [caseTransitions, transitionsOfSorted_length, sortedCaseEvents, sortByTimestamp,
    List.length_insertionSort]

/-- C1: for every event log and every case appearing in it (so N ≥ 1 events),
the extractor emits exactly N - 1 transition records for that case, one per
consecutive pair of the case's timestamp-sorted events, pairing only events
of that case, and the stage_times table is the concatenation over all cases,
so it covers every adjacent pair exactly once. -/
theorem C1_extractor_adjacent_pairs (df : List Event) (c : ℕ) (hc : c ∈ uniqueCaseIds df) :
    1 ≤ (caseEvents df c).length
    ∧ (caseTransitions df c).length = (caseEvents df c).length - 1
    ∧ (∀ e ∈ caseEvents df c, e.case_id = c)
    ∧ (∀ tr ∈ caseTransitions df c, ∃ a b, a ∈ caseEvents df c ∧ b ∈ caseEvents df c
        ∧ tr = mkTransition a b)
    ∧ (stage_df df).length
        = ((uniqueCaseIds df).map fun d => (caseEvents df d).length - 1).sum
    ∧ ∀ (i : ℕ) (h1 : i < (sortedCaseEvents df c).length)
        (h2 : i + 1 < (sortedCaseEvents df c).length)
        (h' : i < (caseTransitions df c).length),
        (caseTransitions df c).get ⟨i, h'⟩
          = mkTransition ((sortedCaseEvents df c).get ⟨i, h1⟩)
              ((sortedCaseEvents df c).get ⟨i + 1, h2⟩) := by
  refine ⟨?_, caseTransitions_length df c, ?_, ?_, ?_, ?_⟩
  · exact List.length_pos.mpr (caseEvents_ne_nil hc)
  · exact fun e he => (mem_caseEvents.mp he).2
  · intro tr htr
    obtain ⟨a, b, ha, hb, hab⟩ := transitionsOfSorted_mem htr
    exact ⟨a, b, (List.mem_insertionSort tsLE).mp ha, (List.mem_insertionSort tsLE).mp hb, hab⟩
  · rw [stage_df, List.length_flatMap]
    refine congrArg List.sum (List.map_congr_left fun d _ => ?_)
    simpa using caseTransitions_length df d
  · intro i h1 h2 h'
    exact transitionsOfSorted_get (sortedCaseEvents df c) i h1 h2 h'

/-- Witness for C1: case 1 of the concrete log has 3 events and 2 transitions. -/
theorem C1_witness :
    (1 ∈ uniqueCaseIds dfW)
    ∧ (caseTransitions dfW 1).length = (caseEvents dfW 1).length - 1
    ∧ (caseTransitions dfW 1).length = 2 :=
  ⟨by decide, (C1_extractor_adjacent_pairs dfW 1 (by decide)).2.1, by decide⟩

/-- C2: per case, the transition durations telescope: their sum equals the
Total_Hours of the ResolutionRecord that calculate_total_resolution_time
produces for that case (exactly, in our exact-rational model). -/
theorem C2_telescoping_sum (df : List Event) (c : ℕ) (hc : c ∈ uniqueCaseIds df) :
    resolutionRecordOf df c ∈ calculate_total_resolution_time df
    ∧ ((caseTransitions df c).map Transition.Duration_Hours).sum
        = (resolutionRecordOf df c).Total_Hours :=
  ⟨List.mem_map_of_mem (resolutionRecordOf df) hc, caseTransitions_sum df c hc⟩

/-- Witness for C2 at case 1 of the concrete log. -/
theorem C2_witness :
    (1 ∈ uniqueCaseIds dfW)
    ∧ ((caseTransitions dfW 1).map Transition.Duration_Hours).sum
        = (resolutionRecordOf dfW 1).Total_Hours :=
  ⟨by decide, (C2_telescoping_sum dfW 1 (by decide)).2⟩

/-- C9: every emitted transition has a non-negative duration, because each
case is sorted by timestamp before consecutive differences are taken, and a
consecutive pair with identical timestamps yields duration exactly 0. -/
theorem C9_duration_nonneg (df : List Event) :
    (∀ tr ∈ stage_df df, 0 ≤ tr.Duration_Hours)
    ∧ ∀ (c i : ℕ) (h1 : i < (sortedCaseEvents df c).length)
        (h2 : i + 1 < (sortedCaseEvents df c).length)
        (h' : i < (caseTransitions df c).length),
        ((sortedCaseEvents df c).get ⟨i, h1⟩).timestamp
            = ((sortedCaseEvents df c).get ⟨i + 1, h2⟩).timestamp →
        ((caseTransitions df c).get ⟨i, h'⟩).Duration_Hours = 0 := by
  constructor
  · intro tr htr
    obtain ⟨c, _, htr'⟩ := List.mem_flatMap.mp htr
    exact transitionsOfSorted_nonneg (List.sorted_insertionSort tsLE (caseEvents df c)) tr htr'
  · intro c i h1 h2 h' heq
    have hg := transitionsOfSorted_get (sortedCaseEvents df c) i h1 h2 h'
    show ((transitionsOfSorted (sortedCaseEvents df c)).get ⟨i, h'⟩).Duration_Hours = 0
    rw [hg]
    show (((sortedCaseEvents df c).get ⟨i + 1, h2⟩).timestamp
        - ((sortedCaseEvents df c).get ⟨i, h1⟩).timestamp) / 3600 = 0
    rw [heq, sub_self, zero_div]

/-- Witness for C9: the first transition of the concrete log has non-negative
duration, and the identical-timestamp pair of case 1 yields duration 0. -/
theorem C9_witness :
    0 ≤ ((stage_df dfW).get ⟨0, by decide⟩).Duration_Hours
    ∧ ((sortedCaseEvents dfW 1).get ⟨1, by decide⟩).timestamp
        = ((sortedCaseEvents dfW 1).get ⟨2, by decide⟩).timestamp
    ∧ ((caseTransitions dfW 1).get ⟨1, by decide⟩).Duration_Hours = 0 :=
  ⟨(C9_duration_nonneg dfW).1 _ (List.get_mem (stage_df dfW) 0 (by decide)),
   by decide,
   (C9_duration_nonneg dfW).2 1 1 (by decide) (by decide) (by decide) (by decide)⟩

/-- C10: the Priority and Category of an emitted transition are those of the
earlier (from) event of the consecutive pair, never of the later event. -/
theorem C10_attrs_from_earlier (df : List Event) (c i : ℕ)
    (h1 : i < (sortedCaseEvents df c).length) (h2 : i + 1 < (sortedCaseEvents df c).length)
    (h' : i < (caseTransitions df c).length) :
    ((caseTransitions df c).get ⟨i, h'⟩).Priority
        = ((sortedCaseEvents df c).get ⟨i, h1⟩).priority
    ∧ ((caseTransitions df c).get ⟨i, h'⟩).Category
        = ((sortedCaseEvents df c).get ⟨i, h1⟩).category := by
  have hg := transitionsOfSorted_get (sortedCaseEvents df c) i h1 h2 h'
  constructor
  · show ((transitionsOfSorted (sortedCaseEvents df c)).get ⟨i, h'⟩).Priority = _
    rw [hg]; rfl
  · show ((transitionsOfSorted (sortedCaseEvents df c)).get ⟨i, h'⟩).Category = _
    rw [hg]; rfl

/-- Witness for C10: in the concrete log the first pair of case 1 has
priority High / category Hardware on the earlier event and Medium / Email on
the later one; the transition carries the earlier event's values. -/
theorem C10_witness :
    ((caseTransitions dfW 1).get ⟨0, by decide⟩).Priority = "High"
    ∧ ((caseTransitions dfW 1).get ⟨0, by decide⟩).Category = "Hardware"
    ∧ ((sortedCaseEvents dfW 1).get ⟨1, by decide⟩).priority = "Medium" :=
  ⟨(C10_attrs_from_earlier dfW 1 0 (by decide) (by decide) (by decide)).1.trans (by decide),
   (C10_attrs_from_earlier dfW 1 0 (by decide) (by decide) (by decide)).2.trans (by decide),
   by decide⟩

/-! ### Claim theorems: bottleneck classification -/

/-- C3: the bottleneck set is exactly the set of summary rows whose
Avg_Hours is strictly greater than the threshold; in particular a row with
Avg_Hours equal to the threshold (such as 20.0 at the default threshold 20)
is excluded. -/
theorem C3_bottleneck_membership (stage_summary : List StageSummaryRow) (threshold : ℚ)
    (r : StageSummaryRow) :
    r ∈ (identify_bottlenecks stage_summary threshold).map Prod.fst
      ↔ r ∈ stage_summary ∧ threshold < r.Avg_Hours := by
  simp [identify_bottlenecks, List.map_map, Function.comp, List.mem_filter]

/-- C4: inside the bottleneck set (for a non-negative threshold) every row is
tagged, and the tag is determined by right-closed bins on Avg_Hours:
MODERATE exactly on (0,30] (which under avg > threshold ≥ 0 is avg ≤ 30),
HIGH exactly on (30,40], CRITICAL exactly on (40,∞); so 30.0 is MODERATE and
40.0 is HIGH. -/
theorem C4_severity_bins (stage_summary : List StageSummaryRow) (threshold : ℚ)
    (r : StageSummaryRow) (v : Option Severity) (ht : 0 ≤ threshold)
    (hmem : (r, v) ∈ identify_bottlenecks stage_summary threshold) :
    (v = some Severity.MODERATE ↔ r.Avg_Hours ≤ 30)
    ∧ (v = some Severity.HIGH ↔ 30 < r.Avg_Hours ∧ r.Avg_Hours ≤ 40)
    ∧ (v = some Severity.CRITICAL ↔ 40 < r.Avg_Hours)
    ∧ v ≠ none := by
  obtain ⟨a, ha, hav⟩ := List.mem_map.mp hmem
  obtain ⟨ha1, ha2⟩ := Prod.ext_iff.mp hav
  subst ha1
  subst ha2
  have hthr : threshold < a.Avg_Hours := by
    have := (List.mem_filter.mp ha).2
    simpa using this
  have hpos : 0 < a.Avg_Hours := lt_of_le_of_lt ht hthr
  rw [severityOf]
  by_cases h30 : a.Avg_Hours ≤ 30
  · rw [if_pos ⟨hpos, h30⟩]
    exact ⟨iff_of_true rfl h30,
      iff_of_false (by simp) fun h => (not_le.mpr h.1) h30,
      iff_of_false (by simp) fun h => (not_le.mpr (lt_trans (by norm_num) h)) h30,
      by simp⟩
  · rw [if_neg fun hh => h30 hh.2]
    by_cases h40 : a.Avg_Hours ≤ 40
    · rw [if_pos ⟨not_le.mp h30, h40⟩]
      exact ⟨iff_of_false (by simp) fun hle => h30 hle,
        iff_of_true rfl ⟨not_le.mp h30, h40⟩,
        iff_of_false (by simp) fun h => (not_le.mpr h) h40,
        by simp⟩
    · rw [if_neg fun hh => h40 hh.2, if_pos (not_le.mp h40)]
      exact ⟨iff_of_false (by simp) fun hle => h30 hle,
        iff_of_false (by simp) fun h => h40 h.2,
        iff_of_true rfl (not_le.mp h40),
        by simp⟩

/-- Witness for C4: at threshold 20, the row with Avg_Hours exactly 30 is
tagged MODERATE and the row with exactly 40 is tagged HIGH. -/
theorem C4_witness :
    (0 : ℚ) ≤ 20
    ∧ ((rowM, some Severity.MODERATE) ∈ identify_bottlenecks [rowM, rowH] 20)
    ∧ ((rowH, some Severity.HIGH) ∈ identify_bottlenecks [rowM, rowH] 20)
    ∧ rowM.Avg_Hours ≤ 30
    ∧ (30 < rowH.Avg_Hours ∧ rowH.Avg_Hours ≤ 40) :=
  ⟨by decide, by decide, by decide,
   (C4_severity_bins [rowM, rowH] 20 rowM (some Severity.MODERATE) (by decide)
      (by decide)).1.mp rfl,
   (C4_severity_bins [rowM, rowH] 20 rowH (some Severity.HIGH) (by decide)
      (by decide)).2.1.mp rfl⟩

/-! ### Claim theorems: degenerate standard deviation -/

/-- C8: a from-stage group with exactly one transition gets an explicitly
undefined standard deviation (none, pandas NaN): the aggregation is total
and the value is not a silent zero. -/
theorem C8_std_single_none (df : List Event) (r : StageSummaryRow)
    (h : r ∈ (calculate_stage_cycle_times df).2) (h1 : r.Count = 1) :
    r.Std_Hours_sq = none ∧ r.Std_Hours_sq ≠ some 0 := by
  obtain ⟨k, hk, rfl⟩ := mem_summary h
  have hlen : (groupDurations (stage_df df) k).length = 1 := h1
  have hnone : (mkSummaryRow k (groupDurations (stage_df df) k)).Std_Hours_sq = none := by
    show sampleVar (groupDurations (stage_df df) k) = none
    rw [sampleVar, if_pos (by rw [hlen]; norm_num)]
  exact ⟨hnone, by rw [hnone]; simp⟩

theorem dfW_stage_df : stage_df dfW = [trA, trB] := by
  norm_num [stage_df, dfW, uniqueCaseIds, uniqueKeepAux, caseTransitions, sortedCaseEvents,
    sortByTimestamp, caseEvents, List.insertionSort, List.orderedInsert, tsLE,
    transitionsOfSorted, mkTransition, trA, trB]

theorem dfW_summary : (calculate_stage_cycle_times dfW).2
    = [⟨"Opened", 5, some 5, none, 1⟩, ⟨"Investigation Started", 0, some 0, none, 1⟩] := by
  have h2 : stageKeys [trA, trB] = ["Investigation Started", "Opened"] := by
    simp [stageKeys, trA, trB, uniqueKeepAux, List.insertionSort, List.orderedInsert,
      strLE, charListLE]
  have h3 : groupDurations [trA, trB] "Investigation Started" = [0] := by
    simp [groupDurations, trA, trB]
  have h4 : groupDurations [trA, trB] "Opened" = [5] := by
    simp [groupDurations, trA, trB]
  have h5 : mkSummaryRow "Investigation Started" [0]
      = ⟨"Investigation Started", 0, some 0, none, 1⟩ := by
    norm_num [mkSummaryRow, round2, qMean, qMedian, sampleVar, Rat.floor,
      List.insertionSort, List.orderedInsert]
  have h6 : mkSummaryRow "Opened" [5] = ⟨"Opened", 5, some 5, none, 1⟩ := by
    norm_num [mkSummaryRow, round2, qMean, qMedian, sampleVar, Rat.floor,
      List.insertionSort, List.orderedInsert]
  rw [snd_calculate_stage_cycle_times, dfW_stage_df, h2]
  rw [List.map_cons, List.map_cons, List.map_nil, h3, h4, h5, h6]
  norm_num [List.insertionSort, List.orderedInsert, avgDescLE]

/-- Witness for C8: in the concrete log the stage Investigation Started has
exactly one outgoing transition, and its Std field is none, not some 0. -/
theorem C8_witness :
    ((⟨"Investigation Started", 0, some 0, none, 1⟩ : StageSummaryRow)
        ∈ (calculate_stage_cycle_times dfW).2)
    ∧ (⟨"Investigation Started", 0, some 0, none, 1⟩ : StageSummaryRow).Count = 1
    ∧ (⟨"Investigation Started", 0, some 0, none, 1⟩ : StageSummaryRow).Std_Hours_sq = none := by
  have hmem : (⟨"Investigation Started", 0, some 0, none, 1⟩ : StageSummaryRow)
      ∈ (calculate_stage_cycle_times dfW).2 := by
    rw [dfW_summary]
    simp
  exact ⟨hmem, rfl, (C8_std_single_none dfW _ hmem rfl).1⟩

/-! ### Claim theorems: summary ordering (C5) -/

theorem dfC5_stage_df :
    stage_df dfC5 = [⟨"B", "A", 1, "Low", "X"⟩, ⟨"A", "B", 1, "Low", "X"⟩] := by
  norm_num [stage_df, dfC5, uniqueCaseIds, uniqueKeepAux, caseTransitions, sortedCaseEvents,
    sortByTimestamp, caseEvents, List.insertionSort, List.orderedInsert, tsLE,
    transitionsOfSorted, mkTransition]

theorem dfC5_summary : (calculate_stage_cycle_times dfC5).2
    = [⟨"A", 1, some 1, none, 1⟩, ⟨"B", 1, some 1, none, 1⟩] := by
  have h2 : stageKeys [(⟨"B", "A", 1, "Low", "X"⟩ : Transition), ⟨"A", "B", 1, "Low", "X"⟩]
      = ["A", "B"] := by
    simp [stageKeys, uniqueKeepAux, List.insertionSort, List.orderedInsert, strLE, charListLE]
  have h3 : groupDurations [(⟨"B", "A", 1, "Low", "X"⟩ : Transition), ⟨"A", "B", 1, "Low", "X"⟩]
      "A" = [1] := by
    simp [groupDurations]
  have h4 : groupDurations [(⟨"B", "A", 1, "Low", "X"⟩ : Transition), ⟨"A", "B", 1, "Low", "X"⟩]
      "B" = [1] := by
    simp [groupDurations]
  have h5 : ∀ k : String, mkSummaryRow k [1] = ⟨k, 1, some 1, none, 1⟩ := by
    intro k
    norm_num [mkSummaryRow, round2, qMean, qMedian, sampleVar, Rat.floor,
      List.insertionSort, List.orderedInsert]
  rw [snd_calculate_stage_cycle_times, dfC5_stage_df, h2]
  rw [List.map_cons, List.map_cons, List.map_nil, h3, h4, h5, h5]
  norm_num [List.insertionSort, List.orderedInsert, avgDescLE]

/-- C5 counterexample: in dfC5 the two stages tie on Avg_Hours, their
group-insertion (first appearance) order is B then A, yet the summary lists
A before B: ties follow ascending key order, not insertion order. -/
theorem C5_counterexample :
    ((calculate_stage_cycle_times dfC5).2).map StageSummaryRow.Avg_Hours = [1, 1]
    ∧ uniqueKeepAux [] ((stage_df dfC5).map Transition.From_Stage) = ["B", "A"]
    ∧ ((calculate_stage_cycle_times dfC5).2).map StageSummaryRow.From_Stage = ["A", "B"]
    ∧ ((calculate_stage_cycle_times dfC5).2).map StageSummaryRow.From_Stage
        ≠ uniqueKeepAux [] ((stage_df dfC5).map Transition.From_Stage) := by
  rw [dfC5_summary, dfC5_stage_df]
  refine ⟨by simp, by simp [uniqueKeepAux], by simp, by simp [uniqueKeepAux]⟩

/-- C5 (amended): the summary is ordered by descending (rounded) mean, and
rows with equal mean appear in ascending From_Stage order — pandas groupby
sorts the group keys, and the stable descending sort preserves that order on
ties; first-appearance (insertion) order plays no role. -/
theorem C5_sorted_desc_tie_asc_key (df : List Event) :
    List.Sorted avgDescLE ((calculate_stage_cycle_times df).2)
    ∧ ((calculate_stage_cycle_times df).2).Pairwise summaryLex :=
  ⟨by
    rw [snd_calculate_stage_cycle_times]
    exact List.sorted_insertionSort avgDescLE _,
   summary_pairwise_lex df⟩

/-! ### Claim theorems: rounding in the chained impact estimate (C6) -/

theorem dfC6_stage_df :
    stage_df dfC6 = [⟨"Opened", "Closed", 3/500, "High", "HW"⟩] := by
  norm_num [stage_df, dfC6, uniqueCaseIds, uniqueKeepAux, caseTransitions, sortedCaseEvents,
    sortByTimestamp, caseEvents, List.insertionSort, List.orderedInsert, tsLE,
    transitionsOfSorted, mkTransition]

theorem dfC6_summary : (calculate_stage_cycle_times dfC6).2
    = [⟨"Opened", 1/100, some (1/100), none, 1⟩] := by
  have h2 : stageKeys [(⟨"Opened", "Closed", 3/500, "High", "HW"⟩ : Transition)]
      = ["Opened"] := by
    simp [stageKeys, uniqueKeepAux, List.insertionSort, List.orderedInsert, strLE, charListLE]
  have h3 : groupDurations [(⟨"Opened", "Closed", 3/500, "High", "HW"⟩ : Transition)]
      "Opened" = [3/500] := by
    simp [groupDurations]
  have h5 : mkSummaryRow "Opened" [3/500] = ⟨"Opened", 1/100, some (1/100), none, 1⟩ := by
    norm_num [mkSummaryRow, round2, qMean, qMedian, sampleVar, Rat.floor,
      List.insertionSort, List.orderedInsert]
  rw [snd_calculate_stage_cycle_times, dfC6_stage_df, h2]
  rw [List.map_cons, List.map_nil, h3, h5]
  norm_num [List.insertionSort, List.orderedInsert]

/-- C6 counterexample: the unrounded mean of the only stage of dfC6 is
0.006 h, the summary carries the rounded 0.01 h, and the impact estimate
computed from the summary differs from the one computed from the unrounded
mean: rounding is applied before the chained computation, not only for
display. -/
theorem C6_counterexample :
    qMean (groupDurations (stage_df dfC6) "Opened") = 3/500
    ∧ ((calculate_stage_cycle_times dfC6).2).map StageSummaryRow.Avg_Hours = [1/100]
    ∧ calculate_improvement_impact ((calculate_stage_cycle_times dfC6).2) 500 (3/5) 30
        ≠ impactFromMeansSpec [3/500] 500 (3/5) 30 := by
  have hL : calculate_improvement_impact [(⟨"Opened", 1/100, some (1/100), none, 1⟩ :
      StageSummaryRow)] 500 (3/5) 30 = ⟨1/100, 1/100, 3, 90, 0⟩ := by
    norm_num [calculate_improvement_impact, total_bottleneck_hours, nlargest2,
      hours_saved_per_ticketQ, annual_hours_savedQ, annual_cost_savingsQ, round2, round0,
      Rat.floor, List.insertionSort, List.orderedInsert, avgDescLE]
  have hR : impactFromMeansSpec [3/500] 500 (3/5) 30 = ⟨1/100, 0, 2, 54, 0⟩ := by
    norm_num [impactFromMeansSpec, specTotal, round2, round0, Rat.floor,
      List.insertionSort, List.orderedInsert, qDescLE]
  refine ⟨?_, ?_, ?_⟩
  · rw [dfC6_stage_df]
    norm_num [groupDurations, qMean]
  · rw [dfC6_summary]
    norm_num
  · rw [dfC6_summary, hL, hR]
    intro h
    have := congrArg ImpactEstimate.hours_saved_per_ticket h
    norm_num at this

/-- C6 (amended): the .round(2) is applied to the summary itself before it
is returned, so the chained impact estimate is a function of the rounded
Avg_Hours column: it equals the spec formula applied to the rounded means,
and each summary Avg_Hours is the rounded group mean (not the unrounded
one). -/
theorem C6_rounding_in_chain (df : List Event)
    (annual_tickets improvement_pct hourly_cost : ℚ) :
    calculate_improvement_impact ((calculate_stage_cycle_times df).2)
        annual_tickets improvement_pct hourly_cost
      = impactFromMeansSpec
          (((calculate_stage_cycle_times df).2).map StageSummaryRow.Avg_Hours)
          annual_tickets improvement_pct hourly_cost
    ∧ ∀ r ∈ (calculate_stage_cycle_times df).2,
        r.Avg_Hours = round2 (qMean (groupDurations (stage_df df) r.From_Stage)) := by
  refine ⟨impact_eq_impactFromMeansSpec _ _ _ _, ?_⟩
  intro r hr
  obtain ⟨k, hk, rfl⟩ := mem_summary hr
  rfl

/-- Witness for C6 (amended): the single summary row of dfC6 carries the
rounded group mean 0.01. -/
theorem C6_witness :
    ((⟨"Opened", 1/100, some (1/100), none, 1⟩ : StageSummaryRow)
        ∈ (calculate_stage_cycle_times dfC6).2)
    ∧ (⟨"Opened", 1/100, some (1/100), none, 1⟩ : StageSummaryRow).Avg_Hours
        = round2 (qMean (groupDurations (stage_df dfC6)
            (⟨"Opened", 1/100, some (1/100), none, 1⟩ : StageSummaryRow).From_Stage)) := by
  have hmem : (⟨"Opened", 1/100, some (1/100), none, 1⟩ : StageSummaryRow)
      ∈ (calculate_stage_cycle_times dfC6).2 := by
    rw [dfC6_summary]
    simp
  exact ⟨hmem, (C6_rounding_in_chain dfC6 500 (3/5) 30).2 _ hmem⟩

/-! ### Claim theorems: linearity of the impact estimate (C7) -/

/-- C7 counterexample: doubling improvement_pct from 0.1 to 0.2 does not
double the returned (rounded) hours_saved_per_ticket: 0.01 is returned at
0.2, but 0.0 at 0.1. -/
theorem C7_counterexample :
    (calculate_improvement_impact [rowC7] 500 (2/10) 30).hours_saved_per_ticket
      ≠ 2 * (calculate_improvement_impact [rowC7] 500 (1/10) 30).hours_saved_per_ticket := by
  have hA : calculate_improvement_impact [rowC7] 500 (2/10) 30 = ⟨1/25, 1/100, 4, 120, 0⟩ := by
    norm_num [rowC7, calculate_improvement_impact, total_bottleneck_hours, nlargest2,
      hours_saved_per_ticketQ, annual_hours_savedQ, annual_cost_savingsQ, round2, round0,
      Rat.floor, List.insertionSort, List.orderedInsert, avgDescLE]
  have hB : calculate_improvement_impact [rowC7] 500 (1/10) 30 = ⟨1/25, 0, 2, 60, 0⟩ := by
    norm_num [rowC7, calculate_improvement_impact, total_bottleneck_hours, nlargest2,
      hours_saved_per_ticketQ, annual_hours_savedQ, annual_cost_savingsQ, round2, round0,
      Rat.floor, List.insertionSort, List.orderedInsert, avgDescLE]
  rw [hA, hB]
  norm_num

/-- C7 (amended): the quantities the source computes before its output
rounding are exactly linear in improvement_pct (doubling it doubles them),
and the returned hours_saved_per_ticket and annual_cost_savings are these
quantities rounded to 2 and 0 decimals respectively — so doubling holds only
up to that output rounding. -/
theorem C7_linear_unrounded (stage_summary : List StageSummaryRow)
    (annual_tickets improvement_pct hourly_cost : ℚ) :
    hours_saved_per_ticketQ stage_summary (2 * improvement_pct)
        = 2 * hours_saved_per_ticketQ stage_summary improvement_pct
    ∧ annual_cost_savingsQ stage_summary annual_tickets (2 * improvement_pct) hourly_cost
        = 2 * annual_cost_savingsQ stage_summary annual_tickets improvement_pct hourly_cost
    ∧ (calculate_improvement_impact stage_summary annual_tickets improvement_pct
          hourly_cost).hours_saved_per_ticket
        = round2 (hours_saved_per_ticketQ stage_summary improvement_pct)
    ∧ (calculate_improvement_impact stage_summary annual_tickets improvement_pct
          hourly_cost).annual_cost_savings
        = round0 (annual_cost_savingsQ stage_summary annual_tickets improvement_pct
            hourly_cost) := by
  refine ⟨?_, ?_, rfl, rfl⟩
  · rw [hours_saved_per_ticketQ, hours_saved_per_ticketQ]
    ring
  · rw [annual_cost_savingsQ, annual_cost_savingsQ, annual_hours_savedQ, annual_hours_savedQ,
      hours_saved_per_ticketQ, hours_saved_per_ticketQ]
    ring

end HelpdeskAnalysis
